import Mathlib

/-!
machine-controller: the OpenNebula provider and the Flatcar provisioning config.

A shallow embedding of

* `pkg/cloudprovider/provider/opennebula/provider.go` (config resolution, `Create`, `Cleanup`,
  `Get`, and the instance wrapper with `Addresses` and `Status`), and
* `pkg/userdata/flatcar/flatcar.go` (`DefaultConfig`, `DefaultConfigForCloud`, `LoadConfig`,
  `Config.Spec`),

followed by the properties of these functions.

Conventions. A Go `(value, error)` result is an `Except`; a Go pointer that may be nil is an
`Option`; a Go run-time panic is the `panic` constructor of `Outcome`. Calls into the OpenNebula
SDK (`goca`) are fields of `goca.Controller`; the requests that change remote state are recorded
in a request log that the operation returns next to its result. Functions of other packages of
machine-controller that the two files call are fields of `ConfigVarResolver` and `World`.

The bytes of a `runtime.RawExtension` are represented by the JSON document they spell, and
`json.Marshal` and `json.Unmarshal` by what `encoding/json` does on the struct `flatcar.Config`:
fields in declaration order under their tags, `omitempty`, strings coerced to valid UTF-8 when
written, object keys matched exactly and then under case folding when read.
-/

namespace MachineController

/-! ## JSON documents and `runtime.RawExtension` -/

/-- A JSON value as `encoding/json` reads it. Number literals are kept as text. -/
inductive JSON where
  | null
  | bool (b : Bool)
  | number (literal : String)
  | string (s : String)
  | array (items : List JSON)
  | object (members : List (String × JSON))

/-- The name `UnmarshalTypeError.Value` gives a JSON value. -/
def JSON.kind : JSON → String
  | .null => "null"
  | .bool _ => "bool"
  | .number _ => "number"
  | .string _ => "string"
  | .array _ => "array"
  | .object _ => "object"

deriving instance DecidableEq for Except

/-- The contents of a non-nil byte slice handed to `json.Unmarshal`: the value the bytes spell,
or `invalid` when they are not one JSON value (the empty slice included). -/
inductive Bytes where
  | invalid
  | document (v : JSON)

/-- Go `runtime.RawExtension`, field `Raw []byte` (`none` is the nil slice). -/
structure RawExtension where
  Raw : Option Bytes

/-! ## goca: templates, virtual machines, controller -/

namespace goca

/-- One element of a goca template: a `KEY=value` pair or a named vector of pairs. -/
inductive Element where
  | pair (key value : String)
  | vector (name : String) (pairs : List (String × String))
deriving DecidableEq, Repr

/-- Body of a goca vector. -/
abbrev Vector := List (String × String)

/-- A goca template, the ordered list of its elements. -/
abbrev Template := List Element

/-- Go `Vector.GetPairs`: every pair of the vector with the given key, in order. -/
def Vector.GetPairs (v : Vector) (key : String) : List (String × String) :=
  v.filter (fun p => p.1 = key)

/-- Go `Vector.GetStr` (through `Vector.GetPair`): the value of the one pair with the key, an
error when the vector has no pair or several pairs with it. -/
def Vector.GetStr (v : Vector) (key : String) : Except String String :=
  match v.GetPairs key with
  | [] => .error ("Vector GetPair: key " ++ key ++ " not found")
  | [p] => .ok p.2
  | _ :: _ :: _ => .error ("Vector GetPair: multiple entries with key " ++ key)

/-- Go `Template.GetVectors`: every vector of the template with the given name, in order. -/
def Template.GetVectors (t : Template) (name : String) : List Vector :=
  t.filterMap (fun e =>
    match e with
    | .vector n ps => if n = name then some ps else none
    | .pair _ _ => none)

/-- Go `Template.GetVector`: the one vector with the given name, an error when the template
has no vector or several vectors with it. -/
def Template.GetVector (t : Template) (name : String) : Except String Vector :=
  match t.GetVectors name with
  | [] => .error ("Template GetVector: tag " ++ name ++ " not found")
  | [v] => .ok v
  | _ :: _ :: _ => .error ("Template GetVector: multiple entries with key " ++ name)

/-- Go `Template.GetStrFromVec`. -/
def Template.GetStrFromVec (t : Template) (vecName key : String) : Except String String :=
  match t.GetVector vecName with
  | .error e => .error e
  | .ok v => v.GetStr key

/-- Go `vm.Template.GetCtx`: an entry of the `CONTEXT` vector. -/
def Template.GetCtx (t : Template) (key : String) : Except String String :=
  t.GetStrFromVec "CONTEXT" key

/-- Go `vm.Template.GetNICs`: the `NIC` vectors. -/
def Template.GetNICs (t : Template) : List Vector :=
  t.GetVectors "NIC"

/-- Go `Template.AddPair`. -/
def Template.AddPair (t : Template) (key value : String) : Template :=
  t ++ [.pair key value]

/-- Go `Template.GetPairs`: the values of the top-level pairs with the given key, in order. -/
def Template.GetPairs (t : Template) (key : String) : List String :=
  t.filterMap (fun e =>
    match e with
    | .pair k v => if k = key then some v else none
    | .vector _ _ => none)

/-- Replaces the value of the first top-level pair with the key. -/
def replacePair (key value : String) : Template → Template
  | [] => []
  | .pair k v :: rest =>
    if k = key then .pair k value :: rest else .pair k v :: replacePair key value rest
  | .vector n ps :: rest => .vector n ps :: replacePair key value rest

/-- The goca setters `CPU`, `Memory` and `VCPU`: when `GetPair` finds the one pair with the key
its value is replaced, otherwise the pair is added. -/
def Template.setPair (t : Template) (key value : String) : Template :=
  match t.GetPairs key with
  | [_] => replacePair key value t
  | _ => t.AddPair key value

/-- Go `Template.AddVector` followed by `AddPair` calls on the new vector (`AddDisk`, `AddNIC`
and the `Add` calls on the returned disk or interface). -/
def Template.AddVectorWith (t : Template) (name : String) (pairs : Vector) : Template :=
  t ++ [.vector name pairs]

/-- Appends a pair to the first vector called `name`. -/
def appendToVector (name key value : String) : Template → Template
  | [] => []
  | .vector n ps :: rest =>
    if n = name then .vector n (ps ++ [(key, value)]) :: rest
    else .vector n ps :: appendToVector name key value rest
  | .pair k v :: rest => .pair k v :: appendToVector name key value rest

/-- Go `Template.AddPairToVec`: with no vector of that name one is added, with exactly one the
pair is appended to it, with several the call fails and the template is unchanged (the callers
here discard that error). -/
def Template.AddPairToVec (t : Template) (vecKey key value : String) : Template :=
  match t.GetVectors vecKey with
  | [] => t ++ [.vector vecKey [(key, value)]]
  | [_] => appendToVector vecKey key value t
  | _ :: _ :: _ => t

/-- Go `vm.Template.AddCtx`. -/
def Template.AddCtx (t : Template) (key value : String) : Template :=
  t.AddPairToVec "CONTEXT" key value

/-- Go `vm.Template.AddIOGraphic`. -/
def Template.AddIOGraphic (t : Template) (key value : String) : Template :=
  t.AddPairToVec "GRAPHICS" key value

/-- Go `vm.VM`, the fields the provider reads. `State` and `LcmState` are the two values
`vm.State()` returns (its error result is discarded by the caller). -/
structure VM where
  ID : Int
  Name : String
  State : Int
  LcmState : Int
  Template : Template
deriving DecidableEq, Repr

/-- What a goca controller answers: `VMs().Info()`, `VM(id).Info(false)`,
`VMs().Create(template, false)` and `VM(id).TerminateHard()` (`none` is the nil error). -/
structure Controller where
  VMsInfo : Except String (List VM)
  VMInfo : Int → Except String VM
  VMsCreate : Template → Except String Int
  VMTerminateHard : Int → Option String

/-- A request that changes remote state. -/
inductive Request where
  | create (tpl : Template)
  | terminateHard (id : Int)
deriving DecidableEq, Repr

/-- Go `vm.State` constants. -/
def Init : Int := 0
/-- Go `vm.Pending`. -/
def Pending : Int := 1
/-- Go `vm.Hold`. -/
def Hold : Int := 2
/-- Go `vm.Active`. -/
def Active : Int := 3
/-- Go `vm.Done`. -/
def Done : Int := 6

/-- Go `vm.LcmState` constants. -/
def LcmInit : Int := 0
/-- Go `vm.Prolog`. -/
def Prolog : Int := 1
/-- Go `vm.Boot`. -/
def Boot : Int := 2
/-- Go `vm.Epilog`. -/
def Epilog : Int := 11

end goca

/-! ## Types of the machine-controller packages used by the provider -/

/-- Modelled from the spec: the reason code of a terminal error (§7), Go
`common.MachineStatusError` of package `pkg/apis/cluster/common`, whose declaration is not in
the two files. -/
inductive MachineStatusError where
  | InvalidConfigurationMachineError
  | UnsupportedChangeMachineError
  | InsufficientResourcesMachineError
  | CreateMachineError
  | UpdateMachineError
  | DeleteMachineError
  | JoinClusterTimeoutMachineError
deriving DecidableEq, Repr

/-- Modelled from the spec: the error values of §7, declared in package
`pkg/cloudprovider/errors`: `TerminalError` with its reason code and message, the sentinel
`ErrInstanceNotFound`, and any other error, carried by its message. -/
inductive GoError where
  | TerminalError (Reason : MachineStatusError) (Message : String)
  | ErrInstanceNotFound
  | other (message : String)
deriving DecidableEq, Repr

/-- Go `errors.Is(err, cloudprovidererrors.ErrInstanceNotFound)`: `TerminalError` wraps no
error, so only the sentinel itself matches. -/
def GoError.isErrInstanceNotFound : GoError → Bool
  | .ErrInstanceNotFound => true
  | _ => false

/-- Modelled from the spec: the coarse status of §4.5, Go `instance.Status` of package
`pkg/cloudprovider/instance`. -/
inductive Status where
  | StatusRunning
  | StatusDeleting
  | StatusDeleted
  | StatusCreating
  | StatusUnknown
deriving DecidableEq, Repr

/-- Go `v1.NodeAddressType`. -/
inductive NodeAddressType where
  | NodeHostName
  | NodeInternalIP
  | NodeExternalIP
  | NodeInternalDNS
  | NodeExternalDNS
deriving DecidableEq, Repr

/-- A Go `float64`, by its bit pattern. -/
structure Float64 where
  bits : Nat
deriving DecidableEq, Repr

/-- Modelled from the spec: a config value given inline or by reference (§4.1), Go
`providerconfigtypes.ConfigVarString`, by its inline value. -/
structure ConfigVarString where
  Value : String
deriving DecidableEq, Repr

/-- Modelled from the spec: Go `providerconfigtypes.ConfigVarBool`, by its inline value. -/
structure ConfigVarBool where
  Value : Option Bool
deriving DecidableEq, Repr

/-- Modelled from the spec: the recognized fields of the provider spec (§6), Go
`opennebulatypes.RawConfig`; the numeric fields are pointers. -/
structure RawConfig where
  Username : ConfigVarString
  Password : ConfigVarString
  Endpoint : ConfigVarString
  Cpu : Option Float64
  Vcpu : Option Int
  Memory : Option Int
  Image : ConfigVarString
  Datastore : ConfigVarString
  DiskSize : Option Int
  Network : ConfigVarString
  EnableVNC : ConfigVarBool
deriving DecidableEq, Repr

/-- Modelled from the spec: the decoded provider spec, Go `providerconfigtypes.Config`, by the
field the provider reads. -/
structure PConfig where
  CloudProviderSpec : RawExtension

/-- Modelled from the spec: the opaque provider spec of a machine, Go
`clusterv1alpha1.ProviderSpec`; `Value` is a pointer and may be nil. -/
structure ProviderSpec where
  Value : Option RawExtension

/-- Modelled from the spec: Go `clusterv1alpha1.MachineSpec`, by the fields the provider
reads. -/
structure MachineSpec where
  Name : String
  ProviderSpec : ProviderSpec

/-- Modelled from the spec: the machine resource, Go `clusterv1alpha1.Machine`, by its UID and
its spec. -/
structure Machine where
  UID : String
  Spec : MachineSpec

/-- Go `providerconfig.ConfigVarResolver`, by the three methods the provider calls; they are
not in the two files and every property holds whatever they return. -/
structure ConfigVarResolver where
  GetConfigVarStringValueOrEnv : ConfigVarString → String → Except String String
  GetConfigVarStringValue : ConfigVarString → Except String String
  GetConfigVarBoolValue : ConfigVarBool → Except String (Bool × Bool)

/-! ## `provider.go` -/

namespace opennebula

/-- Go `provider`. -/
structure provider where
  configVarResolver : ConfigVarResolver

/-- Go `machineUidContextKey`. -/
def machineUidContextKey : String := "K8S_MACHINE_UID"

/-- Go `Config`. -/
structure Config where
  Username : String
  Password : String
  Endpoint : String
  Cpu : Option Float64
  Vcpu : Option Int
  Memory : Option Int
  Image : String
  Datastore : String
  DiskSize : Option Int
  Network : String
  EnableVNC : Bool
deriving DecidableEq, Repr

/-- What the provider calls outside its own file: `providerconfigtypes.GetConfig`,
`opennebulatypes.GetConfig`, the goca controller built from a resolved config
(`goca.NewController(getClient(c))`), the text goca writes for a `float64` pair value, and the
pairs `disk.Add(shared.Size, c.DiskSize)` leaves in the disk vector for an `*int` value. -/
structure World where
  providerconfigGetConfig : ProviderSpec → Except String PConfig
  opennebulaGetConfig : PConfig → Except String RawConfig
  NewController : Config → goca.Controller
  sprintFloat : Float64 → String
  diskSizePairs : Option Int → goca.Vector

/-- Go `provider.getConfig`. -/
def provider.getConfig (p : provider) (w : World) (provSpec : ProviderSpec) :
    Except String (Config × PConfig) :=
  match provSpec.Value with
  | none => .error "machine.spec.providerconfig.value is nil"
  | some _ =>
  match w.providerconfigGetConfig provSpec with
  | .error err => .error err
  | .ok pconfig =>
  match w.opennebulaGetConfig pconfig with
  | .error err => .error err
  | .ok rawConfig =>
  match p.configVarResolver.GetConfigVarStringValueOrEnv rawConfig.Username "ONE_USERNAME" with
  | .error err => .error ("failed to get the value of \"username\" field, error = " ++ err)
  | .ok username =>
  match p.configVarResolver.GetConfigVarStringValueOrEnv rawConfig.Password "ONE_PASSWORD" with
  | .error err => .error ("failed to get the value of \"password\" field, error = " ++ err)
  | .ok password =>
  match p.configVarResolver.GetConfigVarStringValueOrEnv rawConfig.Endpoint "ONE_ENDPOINT" with
  | .error err => .error ("failed to get the value of \"endpoint\" field, error = " ++ err)
  | .ok endpoint =>
  match p.configVarResolver.GetConfigVarStringValue rawConfig.Image with
  | .error err => .error err
  | .ok image =>
  match p.configVarResolver.GetConfigVarStringValue rawConfig.Datastore with
  | .error err => .error err
  | .ok datastore =>
  match p.configVarResolver.GetConfigVarStringValue rawConfig.Network with
  | .error err => .error err
  | .ok network =>
  match p.configVarResolver.GetConfigVarBoolValue rawConfig.EnableVNC with
  | .error err => .error err
  | .ok (enableVNC, _) =>
    .ok ({ Username := username, Password := password, Endpoint := endpoint,
           Cpu := rawConfig.Cpu, Vcpu := rawConfig.Vcpu, Memory := rawConfig.Memory,
           Image := image, Datastore := datastore, DiskSize := rawConfig.DiskSize,
           Network := network, EnableVNC := enableVNC }, pconfig)

/-- Go `openNebulaInstance`. -/
structure openNebulaInstance where
  vm : goca.VM
deriving DecidableEq, Repr

/-- Go `openNebulaInstance.Name`. -/
def openNebulaInstance.Name (i : openNebulaInstance) : String := i.vm.Name

/-- Go map assignment `m[k] = v` on a map kept as an association list. -/
def mapStore (m : List (String × NodeAddressType)) (k : String) (v : NodeAddressType) :
    List (String × NodeAddressType) :=
  (k, v) :: m.filter (fun e => e.1 != k)

/-- The local variable `addresses` of `openNebulaInstance.Addresses` when the loop is over:
`nic.Get(shared.IP)` yields the empty string when the interface has no `IP` pair. -/
def openNebulaInstance.Addresses.addresses (i : openNebulaInstance) :
    List (String × NodeAddressType) :=
  i.vm.Template.GetNICs.foldl
    (fun addresses nic =>
      let ip := match goca.Vector.GetStr nic "IP" with
        | .ok ip => ip
        | .error _ => ""
      mapStore addresses ip .NodeExternalIP)
    []

/-- Go `openNebulaInstance.Addresses`: `none` is the nil map of `return nil`. -/
def openNebulaInstance.Addresses (i : openNebulaInstance) :
    Option (List (String × NodeAddressType)) :=
  let _addresses := openNebulaInstance.Addresses.addresses i
  none

/-- Go `openNebulaInstance.Status`. -/
def openNebulaInstance.Status (i : openNebulaInstance) : Status :=
  let state := i.vm.State
  let lcmState := i.vm.LcmState
  if state = goca.Init ∨ state = goca.Pending ∨ state = goca.Hold then .StatusCreating
  else if state = goca.Active then
    if lcmState = goca.LcmInit ∨ lcmState = goca.Prolog ∨ lcmState = goca.Boot then
      .StatusCreating
    else if lcmState = goca.Epilog then .StatusDeleting
    else .StatusRunning
  else if state = goca.Done then .StatusDeleted
  else .StatusUnknown

/-- Go `strings.Contains` on the characters of the two strings. -/
def stringsContainsChars (s substr : List Char) : Bool :=
  match s with
  | [] => substr.isEmpty
  | c :: cs => substr.isPrefixOf (c :: cs) || stringsContainsChars cs substr

/-- Go `strings.Contains`. -/
def stringsContains (s substr : String) : Bool :=
  stringsContainsChars s.data substr.data

/-- How a Go call ends: it returns, or the goroutine panics. -/
inductive Outcome (α : Type) where
  | panic (message : String)
  | returned (a : α)
deriving DecidableEq, Repr

/-- The run-time error of dereferencing a nil pointer. -/
def nilDereference : String :=
  "runtime error: invalid memory address or nil pointer dereference"

/-- The second loop of `provider.Get`, over the collected ids. -/
def provider.Get.loop (controller : goca.Controller) (machine : Machine) :
    List Int → Except GoError openNebulaInstance
  | [] => .error .ErrInstanceNotFound
  | vmID :: rest =>
    match controller.VMInfo vmID with
    | .error err =>
      .error (.TerminalError .InvalidConfigurationMachineError
        ("failed to get info for VM " ++ toString vmID ++ ", due to " ++ err))
    | .ok vm =>
      match vm.Template.GetCtx machineUidContextKey with
      | .error _ => provider.Get.loop controller machine rest
      | .ok uid =>
        if uid = machine.UID then .ok { vm := vm }
        else provider.Get.loop controller machine rest

/-- The `K8S_MACHINE_UID` context entry of the instance with the given id, as
`VM(id).Info(false)` reports it; `none` when the fetch fails or the entry is absent. -/
def machineUIDOf (controller : goca.Controller) (vmID : Int) : Option String :=
  match controller.VMInfo vmID with
  | .error _ => none
  | .ok vm =>
    match vm.Template.GetCtx machineUidContextKey with
    | .error _ => none
    | .ok uid => some uid

/-- Go `provider.Get`. -/
def provider.Get (p : provider) (w : World) (machine : Machine) :
    Except GoError openNebulaInstance :=
  match p.getConfig w machine.Spec.ProviderSpec with
  | .error err =>
    .error (.TerminalError .InvalidConfigurationMachineError
      ("Failed to parse MachineSpec, due to " ++ err))
  | .ok (c, _) =>
    let controller := w.NewController c
    match controller.VMsInfo with
    | .error err =>
      .error (.TerminalError .InvalidConfigurationMachineError
        ("failed to list virtual machines, due to " ++ err))
    | .ok vmPool =>
      let vmIDs := (vmPool.filter (fun vm => vm.Name = machine.Spec.Name)).map (fun vm => vm.ID)
      provider.Get.loop controller machine vmIDs

/-- Go `provider.Cleanup`: the two results, and the requests sent to change remote state. -/
def provider.Cleanup (p : provider) (w : World) (machine : Machine) :
    (Bool × Option GoError) × List goca.Request :=
  match p.Get w machine with
  | .error err =>
    if err.isErrInstanceNotFound then ((true, none), [])
    else ((false, some err), [])
  | .ok inst =>
    match p.getConfig w machine.Spec.ProviderSpec with
    | .error err =>
      ((false, some (.TerminalError .InvalidConfigurationMachineError
        ("Failed to parse MachineSpec, due to " ++ err))), [])
    | .ok (c, _) =>
      let controller := w.NewController c
      let err := controller.VMTerminateHard inst.vm.ID
      let sent := [goca.Request.terminateHard inst.vm.ID]
      match err with
      | some e =>
        if !stringsContains e "NO_EXISTS" then
          ((false, some (.TerminalError .InvalidConfigurationMachineError
            ("failed to delete virtual machine, due to " ++ e))), sent)
        else ((true, none), sent)
      | none => ((true, none), sent)

/-- The template `provider.Create` builds once the three pointers are dereferenced. -/
def provider.Create.template (w : World) (machine : Machine) (c : Config) (userdata : String)
    (cpu : Float64) (memory vcpu : Int) : goca.Template :=
  let tpl : goca.Template := []
  let tpl := tpl.AddPair "NAME" machine.Spec.Name
  let tpl := tpl.setPair "CPU" (w.sprintFloat cpu)
  let tpl := tpl.setPair "MEMORY" (toString memory)
  let tpl := tpl.setPair "VCPU" (toString vcpu)
  let tpl := tpl.AddVectorWith "DISK"
    ([("IMAGE", c.Image), ("DATASTORE", c.Datastore), ("DEV_PREFIX", "vd")]
      ++ w.diskSizePairs c.DiskSize)
  let tpl := tpl.AddVectorWith "NIC" [("NETWORK", c.Network), ("MODEL", "virtio")]
  let tpl :=
    if c.EnableVNC then (tpl.AddIOGraphic "TYPE" "VNC").AddIOGraphic "LISTEN" "0.0.0.0"
    else tpl
  let tpl := tpl.AddCtx "NETWORK" "YES"
  let tpl := tpl.AddCtx "SSH_PUBLIC_KEY" "$USER[SSH_PUBLIC_KEY]"
  let tpl := tpl.AddCtx machineUidContextKey machine.UID
  tpl.AddCtx "USER_DATA" userdata

/-- Go `provider.Create`: how the call ends, and the requests sent to change remote state.
`*c.Cpu`, `*c.Memory` and `*c.Vcpu` of line 177 panic on a nil pointer. -/
def provider.Create (p : provider) (w : World) (machine : Machine) (userdata : String) :
    Outcome (Except GoError openNebulaInstance) × List goca.Request :=
  match p.getConfig w machine.Spec.ProviderSpec with
  | .error err =>
    (.returned (.error (.TerminalError .InvalidConfigurationMachineError
      ("Failed to parse MachineSpec, due to " ++ err))), [])
  | .ok (c, _) =>
    match c.Cpu with
    | none => (.panic nilDereference, [])
    | some cpu =>
    match c.Memory with
    | none => (.panic nilDereference, [])
    | some memory =>
    match c.Vcpu with
    | none => (.panic nilDereference, [])
    | some vcpu =>
      let tpl := provider.Create.template w machine c userdata cpu memory vcpu
      let controller := w.NewController c
      let sent := [goca.Request.create tpl]
      match controller.VMsCreate tpl with
      | .error err => (.returned (.error (.other err)), sent)
      | .ok vmID =>
        match controller.VMInfo vmID with
        | .error err => (.returned (.error (.other err)), sent)
        | .ok vm => (.returned (.ok { vm := vm }), sent)

end opennebula

/-! ## Go strings and UTF-8

A Go string is a sequence of bytes. `provider.go` only compares, copies and joins strings, and
there a string is a Lean `String`. `flatcar.go` passes the `ProvisioningUtility` string through
`encoding/json`, which reads it as UTF-8 and rewrites the bytes that are not; there a string is
the list of its bytes. -/

/-- A Go string: its bytes. -/
abbrev GoString := List (Fin 256)

namespace utf8

/-- Go `utf8.RuneError`, U+FFFD. -/
def RuneError : Char := Char.ofNat 0xFFFD

/-- Go `utf8.AppendRune` for a Unicode scalar value. -/
def AppendRune (c : Char) : GoString :=
  let r := c.toNat
  if r < 0x80 then [Fin.ofNat r]
  else if r < 0x800 then [Fin.ofNat (0xC0 + r / 64), Fin.ofNat (0x80 + r % 64)]
  else if r < 0x10000 then
    [Fin.ofNat (0xE0 + r / 4096), Fin.ofNat (0x80 + r / 64 % 64), Fin.ofNat (0x80 + r % 64)]
  else
    [Fin.ofNat (0xF0 + r / 262144), Fin.ofNat (0x80 + r / 4096 % 64),
      Fin.ofNat (0x80 + r / 64 % 64), Fin.ofNat (0x80 + r % 64)]

/-- The UTF-8 encoding of a text. -/
def encode : List Char → GoString
  | [] => []
  | c :: cs => AppendRune c ++ encode cs

/-- Go's table `first` joined with `acceptRanges`: for a leading byte, the length of the
sequence it opens and the range the second byte must lie in; `none` for a byte that opens no
multi-byte sequence. -/
def acceptRange (b0 : Nat) : Option (Nat × Nat × Nat) :=
  if 0xC2 ≤ b0 ∧ b0 ≤ 0xDF then some (2, 0x80, 0xBF)
  else if b0 = 0xE0 then some (3, 0xA0, 0xBF)
  else if b0 = 0xED then some (3, 0x80, 0x9F)
  else if 0xE1 ≤ b0 ∧ b0 ≤ 0xEF then some (3, 0x80, 0xBF)
  else if b0 = 0xF0 then some (4, 0x90, 0xBF)
  else if 0xF1 ≤ b0 ∧ b0 ≤ 0xF3 then some (4, 0x80, 0xBF)
  else if b0 = 0xF4 then some (4, 0x80, 0x8F)
  else none

/-- A continuation byte, `0x80..0xBF`. -/
def isCont (b : Nat) : Bool := 0x80 ≤ b && b ≤ 0xBF

/-- Go `utf8.DecodeRuneInString`: the first rune of the string and its width in bytes;
`(RuneError, 1)` when the first byte opens no valid sequence, `(RuneError, 0)` on the empty
string. -/
def DecodeRuneInString : GoString → Char × Nat
  | [] => (RuneError, 0)
  | b0 :: tl =>
    if b0.val < 0x80 then (Char.ofNat b0.val, 1)
    else
      match acceptRange b0.val, tl with
      | some (2, lo, hi), b1 :: _ =>
        if lo ≤ b1.val ∧ b1.val ≤ hi then
          (Char.ofNat ((b0.val - 0xC0) * 64 + (b1.val - 0x80)), 2)
        else (RuneError, 1)
      | some (3, lo, hi), b1 :: b2 :: _ =>
        if lo ≤ b1.val ∧ b1.val ≤ hi ∧ isCont b2.val then
          (Char.ofNat ((b0.val - 0xE0) * 4096 + (b1.val - 0x80) * 64 + (b2.val - 0x80)), 3)
        else (RuneError, 1)
      | some (4, lo, hi), b1 :: b2 :: b3 :: _ =>
        if lo ≤ b1.val ∧ b1.val ≤ hi ∧ isCont b2.val ∧ isCont b3.val then
          (Char.ofNat ((b0.val - 0xF0) * 262144 + (b1.val - 0x80) * 4096 + (b2.val - 0x80) * 64
            + (b3.val - 0x80)), 4)
        else (RuneError, 1)
      | _, _ => (RuneError, 1)

/-- The runes of a string from a position on, `skip` bytes of the last rune still to pass. -/
def runesFrom (skip : Nat) : GoString → List Char
  | [] => []
  | b :: tl =>
    match skip with
    | k + 1 => runesFrom k tl
    | 0 =>
      let (r, size) := DecodeRuneInString (b :: tl)
      r :: runesFrom (size - 1) tl

/-- The runes a Go loop `for i < len(s) { c, size := utf8.DecodeRuneInString(s[i:]); i += size }`
reads in the string: every byte that opens no valid sequence reads as `RuneError`. -/
def runes (s : GoString) : List Char := runesFrom 0 s

end utf8

/-! ## `flatcar.go` -/

/-- A Go string constant or literal: the UTF-8 bytes of the text. -/
def GoString.ofString (s : String) : GoString := utf8.encode s.data

namespace flatcar

/-- Go `ProvisioningUtility`, a string type. -/
abbrev ProvisioningUtility := GoString

/-- Go constant `Ignition`. -/
def Ignition : ProvisioningUtility := GoString.ofString "ignition"

/-- Go constant `CloudInit`. -/
def CloudInit : ProvisioningUtility := GoString.ofString "cloud-init"

/-- Modelled from the spec: Go `types.CloudProvider`, a string type that is only compared
here. -/
abbrev CloudProvider := String

/-- Modelled from the spec: the named cloud of §4.7, Go constant `types.CloudProviderAWS` of
package `pkg/providerconfig/types`. -/
def CloudProviderAWS : CloudProvider := "aws"

/-- Go `Config`. The default value of the structure is Go's zero value `Config{}`. -/
structure Config where
  DisableAutoUpdate : Bool := false
  DisableLocksmithD : Bool := false
  DisableUpdateEngine : Bool := false
  ProvisioningUtility : ProvisioningUtility := []
deriving DecidableEq, Repr

/-- The fields of `Config` that `encoding/json` reads and writes, in declaration order. -/
inductive Field where
  | DisableAutoUpdate
  | DisableLocksmithD
  | DisableUpdateEngine
  | ProvisioningUtility
deriving DecidableEq, Repr

/-- The name of a field in its `json` tag. -/
def Field.name : Field → String
  | .DisableAutoUpdate => "disableAutoUpdate"
  | .DisableLocksmithD => "disableLocksmithD"
  | .DisableUpdateEngine => "disableUpdateEngine"
  | .ProvisioningUtility => "provisioningUtility"

/-- The fields in declaration order. -/
def fields : List Field :=
  [.DisableAutoUpdate, .DisableLocksmithD, .DisableUpdateEngine, .ProvisioningUtility]

/-- The errors of `json.Unmarshal`. -/
inductive JSONError where
  | SyntaxError
  | UnmarshalTypeError (value : String) (field : String)
deriving DecidableEq, Repr

/-- Go `json.Marshal` of a `Config`: the three booleans under their tags, then
`provisioningUtility` unless the string is empty (`omitempty`). A string is written coerced to
valid UTF-8, every byte that opens no valid sequence replaced by U+FFFD. The call cannot fail on
this type. -/
def jsonMarshal (cfg : Config) : Bytes :=
  .document (.object
    ([("disableAutoUpdate", JSON.bool cfg.DisableAutoUpdate),
      ("disableLocksmithD", JSON.bool cfg.DisableLocksmithD),
      ("disableUpdateEngine", JSON.bool cfg.DisableUpdateEngine)]
      ++ (if cfg.ProvisioningUtility = [] then []
          else [("provisioningUtility",
                  JSON.string (String.mk (utf8.runes cfg.ProvisioningUtility)))])))

/-- The case folding `encoding/json` applies to an object key before it is compared with the
field names: ASCII letters fold to upper case, and so do the two other runes whose simple case
folding reaches an ASCII letter, U+212A (Kelvin sign) and U+017F (long s). -/
def foldRune (c : Char) : Char :=
  if 'a'.toNat ≤ c.toNat ∧ c.toNat ≤ 'z'.toNat then Char.ofNat (c.toNat - 32)
  else if c.toNat = 0x212A then 'K'
  else if c.toNat = 0x17F then 'S'
  else c

/-- Folds a name rune by rune. -/
def foldName (s : String) : List Char := s.data.map foldRune

/-- The field an object key is decoded into: the field with exactly that name, else the field
whose name equals the key under case folding, else none (the member is skipped). -/
def findField (key : String) : Option Field :=
  match fields.find? (fun f => f.name = key) with
  | some f => some f
  | none => fields.find? (fun f => foldName f.name = foldName key)

/-- The state of a decode: the struct filled so far, and the first type error saved. -/
abbrev DecodeState := Config × Option JSONError

/-- Go `decodeState.saveError`: only the first error is kept. -/
def saveError (st : DecodeState) (err : JSONError) : DecodeState :=
  match st.2 with
  | some _ => st
  | none => (st.1, some err)

/-- Decoding one JSON value into a field: `null` leaves the field as it is, a value of the
kind of the field is stored (a JSON string as its UTF-8 bytes), any other value saves an
`UnmarshalTypeError` and decoding goes on. -/
def decodeField (f : Field) (v : JSON) (st : DecodeState) : DecodeState :=
  match f, v with
  | _, .null => st
  | .DisableAutoUpdate, .bool b => ({ st.1 with DisableAutoUpdate := b }, st.2)
  | .DisableLocksmithD, .bool b => ({ st.1 with DisableLocksmithD := b }, st.2)
  | .DisableUpdateEngine, .bool b => ({ st.1 with DisableUpdateEngine := b }, st.2)
  | .ProvisioningUtility, .string s =>
    ({ st.1 with ProvisioningUtility := utf8.encode s.data }, st.2)
  | f, v => saveError st (.UnmarshalTypeError v.kind f.name)

/-- Decoding the members of an object in order. -/
def decodeObject (members : List (String × JSON)) (st : DecodeState) : DecodeState :=
  members.foldl
    (fun st m =>
      match findField m.1 with
      | some f => decodeField f m.2 st
      | none => st)
    st

/-- Go `json.Unmarshal(data, &cfg)` for a `Config`: a syntax error on bytes that are not one
JSON value (the nil and the empty slice included), no effect on `null`, a type error on any
other value that is not an object. The result is the saved error when there is one. -/
def jsonUnmarshal (data : Option Bytes) (cfg : Config) : Except JSONError Config :=
  match data with
  | none => .error .SyntaxError
  | some .invalid => .error .SyntaxError
  | some (.document .null) => .ok cfg
  | some (.document (.object members)) =>
    match decodeObject members (cfg, none) with
    | (cfg, none) => .ok cfg
    | (_, some err) => .error err
  | some (.document v) => .error (.UnmarshalTypeError v.kind "Config")

/-- Go `DefaultConfigForCloud`. -/
def DefaultConfigForCloud (operatingSystemSpec : RawExtension) (cloudProvider : CloudProvider) :
    RawExtension :=
  let osSpec : Config := {}
  let osSpec :=
    if cloudProvider = CloudProviderAWS then { osSpec with ProvisioningUtility := CloudInit }
    else osSpec
  match operatingSystemSpec.Raw with
  | none => { operatingSystemSpec with Raw := some (jsonMarshal osSpec) }
  | some _ => operatingSystemSpec

/-- Go `DefaultConfig`. -/
def DefaultConfig (operatingSystemSpec : RawExtension) : RawExtension :=
  DefaultConfigForCloud operatingSystemSpec ""

/-- Go `LoadConfig`. -/
def LoadConfig (r : RawExtension) : Except JSONError Config :=
  let r := DefaultConfig r
  let cfg : Config := {}
  match jsonUnmarshal r.Raw cfg with
  | .error err => .error err
  | .ok cfg => .ok cfg

/-- Go `Config.Spec`. -/
def Config.Spec (cfg : Config) : Except JSONError RawExtension :=
  let ext : RawExtension := { Raw := none }
  let b := jsonMarshal cfg
  .ok { ext with Raw := some b }

end flatcar

namespace opennebula

/-! ## Sample worlds

Concrete resolvers, controllers and machines on which the operations are evaluated. -/

namespace sample

/-- A resolver that returns the inline value of every variable. -/
def resolver : ConfigVarResolver where
  GetConfigVarStringValueOrEnv := fun v _ => .ok v.Value
  GetConfigVarStringValue := fun v => .ok v.Value
  GetConfigVarBoolValue := fun v => .ok (v.Value.getD false, v.Value.isSome)

/-- The provider over the sample resolver. -/
def provider : opennebula.provider := { configVarResolver := resolver }

/-- A raw config with every field set but, possibly, `cpu`. -/
def rawConfig (cpu : Option Float64) : RawConfig where
  Username := { Value := "oneadmin" }
  Password := { Value := "secret" }
  Endpoint := { Value := "http://one:2633/RPC2" }
  Cpu := cpu
  Vcpu := some 2
  Memory := some 1024
  Image := { Value := "flatcar" }
  Datastore := { Value := "default" }
  DiskSize := some 20480
  Network := { Value := "private" }
  EnableVNC := { Value := some false }

/-- The config the sample resolver makes of `rawConfig cpu`. -/
def config (cpu : Option Float64) : Config where
  Username := "oneadmin"
  Password := "secret"
  Endpoint := "http://one:2633/RPC2"
  Cpu := cpu
  Vcpu := some 2
  Memory := some 1024
  Image := "flatcar"
  Datastore := "default"
  DiskSize := some 20480
  Network := "private"
  EnableVNC := false

/-- The provider config every sample world decodes. -/
def pconfig : PConfig := { CloudProviderSpec := { Raw := none } }

/-- A world that decodes every provider spec to `rawConfig cpu` and talks to `controller`. -/
def world (cpu : Option Float64) (controller : goca.Controller) : World where
  providerconfigGetConfig := fun _ => .ok pconfig
  opennebulaGetConfig := fun _ => .ok (rawConfig cpu)
  NewController := fun _ => controller
  sprintFloat := fun _ => "1.000000"
  diskSizePairs := fun _ => []

/-- The machine `worker-1` with UID `uid-1`. -/
def machine : Machine where
  UID := "uid-1"
  Spec := { Name := "worker-1", ProviderSpec := { Value := some { Raw := none } } }

/-- An instance called `worker-1` with the given id and context vector. -/
def vm (id : Int) (context : List (String × String)) : goca.VM where
  ID := id
  Name := "worker-1"
  State := goca.Active
  LcmState := 3
  Template := [.vector "CONTEXT" context]

/-- An instance called `worker-1` whose template has no context vector. -/
def bareVM (id : Int) : goca.VM where
  ID := id
  Name := "worker-1"
  State := goca.Active
  LcmState := 3
  Template := []

/-- A pool of three instances called `worker-1`: the first was created for another machine,
the second has no context, the third was created for `machine`. -/
def pool : List goca.VM :=
  [vm 1 [("K8S_MACHINE_UID", "uid-0")], bareVM 2, vm 3 [("K8S_MACHINE_UID", "uid-1")]]

/-- A controller over `pool` whose calls all succeed, but for `TerminateHard`, which answers
`terminate`. -/
def controller (terminate : Option String) : goca.Controller where
  VMsInfo := .ok pool
  VMInfo := fun id =>
    if id = 1 then .ok (vm 1 [("K8S_MACHINE_UID", "uid-0")])
    else if id = 2 then .ok (bareVM 2)
    else .ok (vm 3 [("K8S_MACHINE_UID", "uid-1")])
  VMsCreate := fun _ => .ok 3
  VMTerminateHard := fun _ => terminate

/-- A controller whose pool is empty. -/
def emptyController : goca.Controller where
  VMsInfo := .ok []
  VMInfo := fun _ => .error "OpenNebula error [NO_EXISTS]"
  VMsCreate := fun _ => .ok 4
  VMTerminateHard := fun _ => none

/-- A controller whose list call fails. -/
def failingController : goca.Controller where
  VMsInfo := .error "connection refused"
  VMInfo := fun _ => .error "connection refused"
  VMsCreate := fun _ => .error "connection refused"
  VMTerminateHard := fun _ => some "connection refused"

/-- A controller over a pool of two instances called `worker-1`: the first, id 3, was created
for `machine`; the info fetch of the second, id 5, fails. -/
def racingController : goca.Controller where
  VMsInfo := .ok [vm 3 [], vm 5 []]
  VMInfo := fun id =>
    if id = 3 then .ok (vm 3 [("K8S_MACHINE_UID", "uid-1")])
    else .error "OpenNebula error [NO_EXISTS]"
  VMsCreate := fun _ => .ok 4
  VMTerminateHard := fun _ => none

end sample

/-! ## Properties of the instance wrapper -/

/-- C1: `openNebulaInstance.Status` follows the status table: Creating for Init, Pending and
Hold; under Active, Creating for LcmInit, Prolog and Boot, Deleting for Epilog and Running for
every other life-cycle state; Deleted for Done; Unknown for every other state, whatever the
life-cycle state is. -/
theorem Status_follows_table (i : openNebulaInstance) :
    ((i.vm.State = goca.Init ∨ i.vm.State = goca.Pending ∨ i.vm.State = goca.Hold) →
      i.Status = .StatusCreating) ∧
    (i.vm.State = goca.Active →
      (i.vm.LcmState = goca.LcmInit ∨ i.vm.LcmState = goca.Prolog ∨ i.vm.LcmState = goca.Boot) →
      i.Status = .StatusCreating) ∧
    (i.vm.State = goca.Active → i.vm.LcmState = goca.Epilog → i.Status = .StatusDeleting) ∧
    (i.vm.State = goca.Active → i.vm.LcmState ≠ goca.LcmInit → i.vm.LcmState ≠ goca.Prolog →
      i.vm.LcmState ≠ goca.Boot → i.vm.LcmState ≠ goca.Epilog → i.Status = .StatusRunning) ∧
    (i.vm.State = goca.Done → i.Status = .StatusDeleted) ∧
    (i.vm.State ≠ goca.Init → i.vm.State ≠ goca.Pending → i.vm.State ≠ goca.Hold →
      i.vm.State ≠ goca.Active → i.vm.State ≠ goca.Done → i.Status = .StatusUnknown) := by
  simp only [openNebulaInstance.Status, goca.Init, goca.Pending, goca.Hold, goca.Active,
    goca.Done, goca.LcmInit, goca.Prolog, goca.Boot, goca.Epilog]
  refine ⟨?_, ?_, ?_, ?_, ?_, ?_⟩
  · intro h
    rw [if_pos h]
  · intro hs hl
    rw [if_neg (by omega), if_pos hs, if_pos hl]
  · intro hs hl
    rw [if_neg (by omega), if_pos hs, if_neg (by omega), if_pos hl]
  · intro hs h0 h1 h2 h3
    rw [if_neg (by omega), if_pos hs, if_neg (by omega), if_neg h3]
  · intro hs
    rw [if_neg (by omega), if_neg (by omega), if_pos hs]
  · intro h0 h1 h2 h3 h4
    rw [if_neg (by omega), if_neg h3, if_neg h4]

/-- C9: `openNebulaInstance.Addresses` returns the nil map for every instance, whatever
interfaces its template declares; the map built from the interfaces, which has an entry as soon
as the template has one interface, is discarded. -/
theorem Addresses_returns_nil (i : openNebulaInstance) :
    i.Addresses = none ∧
    (i.vm.Template.GetNICs ≠ [] → openNebulaInstance.Addresses.addresses i ≠ []) := by
  refine ⟨rfl, ?_⟩
  intro hne
  unfold openNebulaInstance.Addresses.addresses
  rcases List.eq_nil_or_concat i.vm.Template.GetNICs with h | ⟨l, nic, h⟩
  · exact absurd h hne
  · rw [h, List.concat_eq_append, List.foldl_append]
    simp [mapStore]

/-! ## Properties of `Get` -/

/-- The ids `provider.Get` collects in its first loop. -/
theorem Get_ids_cons (name : String) (v : goca.VM) (rest : List goca.VM) :
    ((v :: rest).filter (fun vm => vm.Name = name)).map (fun vm => vm.ID) =
      if v.Name = name then
        v.ID :: (rest.filter (fun vm => vm.Name = name)).map (fun vm => vm.ID)
      else (rest.filter (fun vm => vm.Name = name)).map (fun vm => vm.ID) := by
  by_cases h : v.Name = name
  · simp [List.filter_cons, h]
  · simp [List.filter_cons, h]

/-- The second loop of `Get` on a pool whose fetches all succeed: it ends on the first
instance with the name and the embedded identifier, or on the not-found sentinel. -/
theorem Get_loop_first_match (controller : goca.Controller) (machine : Machine)
    (pool : List goca.VM)
    (hinfo : ∀ v ∈ pool, ∃ vm, controller.VMInfo v.ID = .ok vm) :
    (∀ v, pool.find? (fun v => decide (v.Name = machine.Spec.Name) &&
          decide (machineUIDOf controller v.ID = some machine.UID)) = some v →
        ∃ vm, controller.VMInfo v.ID = .ok vm ∧
          provider.Get.loop controller machine
            ((pool.filter (fun vm => vm.Name = machine.Spec.Name)).map (fun vm => vm.ID))
            = .ok { vm := vm }) ∧
    (pool.find? (fun v => decide (v.Name = machine.Spec.Name) &&
          decide (machineUIDOf controller v.ID = some machine.UID)) = none →
        provider.Get.loop controller machine
          ((pool.filter (fun vm => vm.Name = machine.Spec.Name)).map (fun vm => vm.ID))
          = .error .ErrInstanceNotFound) := by
  induction pool with
  | nil =>
    refine ⟨?_, ?_⟩
    · intro v hv
      simp at hv
    · intro _
      rfl
  | cons u rest ih =>
    have ih := ih (fun v hv => hinfo v (List.mem_cons_of_mem _ hv))
    obtain ⟨vm, hvm⟩ := hinfo u (List.mem_cons_self _ _)
    rw [Get_ids_cons, List.find?_cons]
    by_cases hname : u.Name = machine.Spec.Name
    · rw [if_pos hname]
      cases hctx : vm.Template.GetCtx machineUidContextKey with
      | error e =>
        have hu : machineUIDOf controller u.ID = none := by
          simp [machineUIDOf, hvm, hctx]
        simp only [hu, hname, decide_True, Bool.true_and, reduceCtorEq, decide_False,
          provider.Get.loop, hvm, hctx]
        exact ih
      | ok uid =>
        have hu : machineUIDOf controller u.ID = some uid := by
          simp [machineUIDOf, hvm, hctx]
        by_cases huid : uid = machine.UID
        · simp only [hu, hname, huid, decide_True, Bool.true_and, provider.Get.loop, hvm, hctx,
            if_true]
          refine ⟨?_, ?_⟩
          · intro v hv
            simp only [Option.some.injEq] at hv
            subst hv
            exact ⟨vm, hvm, rfl⟩
          · intro hv
            simp at hv
        · simp only [hu, hname, huid, decide_True, Bool.true_and, Option.some.injEq, decide_False,
            provider.Get.loop, hvm, hctx, if_false]
          exact ih
    · rw [if_neg hname]
      simp only [hname, decide_False, Bool.false_and]
      exact ih

/-- C2: when the config resolves, the list call succeeds and every info fetch of the pool
succeeds, `provider.Get` returns the first instance in pool order whose name is the machine
name and whose `K8S_MACHINE_UID` context entry is the machine UID (an absent entry never
matches), and returns `ErrInstanceNotFound` when the pool has no such instance, whatever
instances carry the name. -/
theorem Get_returns_first_match (p : provider) (w : World) (machine : Machine) (c : Config)
    (pc : PConfig) (pool : List goca.VM)
    (hcfg : p.getConfig w machine.Spec.ProviderSpec = .ok (c, pc))
    (hlist : (w.NewController c).VMsInfo = .ok pool)
    (hinfo : ∀ v ∈ pool, ∃ vm, (w.NewController c).VMInfo v.ID = .ok vm) :
    (∀ v, pool.find? (fun v => decide (v.Name = machine.Spec.Name) &&
          decide (machineUIDOf (w.NewController c) v.ID = some machine.UID)) = some v →
        ∃ vm, (w.NewController c).VMInfo v.ID = .ok vm ∧ p.Get w machine = .ok { vm := vm }) ∧
    (pool.find? (fun v => decide (v.Name = machine.Spec.Name) &&
          decide (machineUIDOf (w.NewController c) v.ID = some machine.UID)) = none →
        p.Get w machine = .error .ErrInstanceNotFound) := by
  have hget : p.Get w machine =
      provider.Get.loop (w.NewController c) machine
        ((pool.filter (fun vm => vm.Name = machine.Spec.Name)).map (fun vm => vm.ID)) := by
    simp only [provider.Get, hcfg, hlist]
  rw [hget]
  exact Get_loop_first_match (w.NewController c) machine pool hinfo

/-- C2 at the sample pool: the first two instances carry the name but not the identifier, the
third is returned. -/
theorem Get_returns_first_match_sample :
    (∀ v, sample.pool.find? (fun v => decide (v.Name = sample.machine.Spec.Name) &&
          decide (machineUIDOf (sample.controller none) v.ID = some sample.machine.UID)) = some v →
        ∃ vm, (sample.controller none).VMInfo v.ID = .ok vm ∧
          sample.provider.Get (sample.world none (sample.controller none)) sample.machine
            = .ok { vm := vm }) ∧
    (sample.pool.find? (fun v => decide (v.Name = sample.machine.Spec.Name) &&
          decide (machineUIDOf (sample.controller none) v.ID = some sample.machine.UID)) = none →
        sample.provider.Get (sample.world none (sample.controller none)) sample.machine
          = .error .ErrInstanceNotFound) :=
  Get_returns_first_match sample.provider (sample.world none (sample.controller none))
    sample.machine (sample.config none) sample.pconfig sample.pool rfl rfl
    (by
      intro v hv
      simp only [sample.pool, List.mem_cons, List.mem_singleton, List.not_mem_nil, or_false] at hv
      rcases hv with h | h | h <;> subst h
      · exact ⟨_, rfl⟩
      · exact ⟨_, rfl⟩
      · exact ⟨_, rfl⟩)

/-- The second loop of `Get` ends on a terminal error when an info fetch fails and no id before
it belongs to an instance with the embedded identifier. -/
theorem Get_loop_terminal (controller : goca.Controller) (machine : Machine)
    (pre : List goca.VM) (v : goca.VM) (post : List goca.VM) (e : String)
    (hname : v.Name = machine.Spec.Name)
    (hfail : controller.VMInfo v.ID = .error e)
    (hpre : ∀ u ∈ pre, u.Name = machine.Spec.Name →
      machineUIDOf controller u.ID ≠ some machine.UID) :
    ∃ msg, provider.Get.loop controller machine
        (((pre ++ v :: post).filter (fun vm => vm.Name = machine.Spec.Name)).map
          (fun vm => vm.ID))
      = .error (.TerminalError .InvalidConfigurationMachineError msg) := by
  induction pre with
  | nil =>
    rw [List.nil_append, Get_ids_cons, if_pos hname]
    simp only [provider.Get.loop, hfail]
    exact ⟨_, rfl⟩
  | cons u rest ih =>
    have ih := ih (fun x hx => hpre x (List.mem_cons_of_mem _ hx))
    have hu := hpre u (List.mem_cons_self _ _)
    rw [List.cons_append, Get_ids_cons]
    by_cases hn : u.Name = machine.Spec.Name
    · rw [if_pos hn]
      have hu := hu hn
      cases hvm : controller.VMInfo u.ID with
      | error e1 =>
        simp only [provider.Get.loop, hvm]
        exact ⟨_, rfl⟩
      | ok vm =>
        cases hctx : vm.Template.GetCtx machineUidContextKey with
        | error e2 =>
          simp only [provider.Get.loop, hvm, hctx]
          exact ih
        | ok uid =>
          have hne : uid ≠ machine.UID := by
            intro h
            apply hu
            simp [machineUIDOf, hvm, hctx, h]
          simp only [provider.Get.loop, hvm, hctx, if_neg hne]
          exact ih
    · rw [if_neg hn]
      exact ih

/-- C5 fails as stated: in the pool of `racingController` the info fetch of an instance called
like the machine fails, and `Get` returns the instance found before it. -/
theorem Get_terminal_counterexample :
    sample.racingController.VMsInfo = .ok [sample.vm 3 [], sample.vm 5 []] ∧
    (sample.vm 5 []).Name = sample.machine.Spec.Name ∧
    sample.racingController.VMInfo (sample.vm 5 []).ID = .error "OpenNebula error [NO_EXISTS]" ∧
    sample.provider.Get (sample.world none sample.racingController) sample.machine
      = .ok { vm := sample.vm 3 [("K8S_MACHINE_UID", "uid-1")] } := by
  refine ⟨rfl, rfl, rfl, ?_⟩
  decide

/-- C5, amended: when the config resolves, `provider.Get` returns a `TerminalError` with reason
`InvalidConfigurationMachineError` if the list call fails, or if the info fetch fails for an
instance that has the machine name while no instance before it in the pool has the machine
name and the machine UID in its `K8S_MACHINE_UID` context entry. -/
theorem Get_terminal_on_failure (p : provider) (w : World) (machine : Machine) (c : Config)
    (pc : PConfig)
    (hcfg : p.getConfig w machine.Spec.ProviderSpec = .ok (c, pc))
    (h : (∃ e, (w.NewController c).VMsInfo = .error e) ∨
      (∃ pre v post e, (w.NewController c).VMsInfo = .ok (pre ++ v :: post) ∧
        v.Name = machine.Spec.Name ∧ (w.NewController c).VMInfo v.ID = .error e ∧
        ∀ u ∈ pre, u.Name = machine.Spec.Name →
          machineUIDOf (w.NewController c) u.ID ≠ some machine.UID)) :
    ∃ msg, p.Get w machine = .error (.TerminalError .InvalidConfigurationMachineError msg) := by
  rcases h with ⟨e, he⟩ | ⟨pre, v, post, e, hlist, hname, hfail, hpre⟩
  · simp only [provider.Get, hcfg, he]
    exact ⟨_, rfl⟩
  · simp only [provider.Get, hcfg, hlist]
    exact Get_loop_terminal (w.NewController c) machine pre v post e hname hfail hpre

/-- C5, amended, at a controller whose list call fails. -/
theorem Get_terminal_on_failure_sample :
    ∃ msg, sample.provider.Get (sample.world none sample.failingController) sample.machine
      = .error (.TerminalError .InvalidConfigurationMachineError msg) :=
  Get_terminal_on_failure sample.provider (sample.world none sample.failingController)
    sample.machine (sample.config none) sample.pconfig rfl (Or.inl ⟨_, rfl⟩)

/-! ## Properties of `Cleanup` -/

/-- The characters of `substr` occur in `s` in a row exactly when `strings.Contains` says so. -/
theorem stringsContainsChars_iff (s substr : List Char) :
    stringsContainsChars s substr = true ↔ List.IsInfix substr s := by
  induction s with
  | nil =>
    simp [stringsContainsChars, List.isEmpty_iff]
  | cons c cs ih =>
    simp only [stringsContainsChars, Bool.or_eq_true, ih, List.infix_cons_iff,
      List.isPrefixOf_iff_prefix]

/-- When `Get` returns an instance the config resolved. -/
theorem getConfig_ok_of_Get_ok (p : provider) (w : World) (machine : Machine)
    (inst : openNebulaInstance) (hget : p.Get w machine = .ok inst) :
    ∃ c pc, p.getConfig w machine.Spec.ProviderSpec = .ok (c, pc) := by
  cases hcfg : p.getConfig w machine.Spec.ProviderSpec with
  | error e =>
    simp [provider.Get, hcfg] at hget
  | ok r =>
    exact ⟨r.1, r.2, rfl⟩

/-- C3: when the lookup of `provider.Cleanup` reports `ErrInstanceNotFound`, `Cleanup` returns
`(true, nil)` and sends no request; so a call made once the instance is gone succeeds like any
earlier call that succeeded. -/
theorem Cleanup_not_found_succeeds (p : provider) (w : World) (machine : Machine)
    (h : p.Get w machine = .error .ErrInstanceNotFound) :
    p.Cleanup w machine = ((true, none), []) ∧
    ∀ w₁ : World, (p.Cleanup w₁ machine).1 = (true, none) →
      (p.Cleanup w machine).1 = (p.Cleanup w₁ machine).1 := by
  have hc : p.Cleanup w machine = ((true, none), []) := by
    simp only [provider.Cleanup, h, GoError.isErrInstanceNotFound, if_true]
  refine ⟨hc, ?_⟩
  intro w₁ h₁
  rw [hc, h₁]

/-- C3 at the sample machine, on a controller whose pool is empty. -/
theorem Cleanup_not_found_succeeds_sample :
    sample.provider.Cleanup (sample.world none sample.emptyController) sample.machine
      = ((true, none), []) ∧
    ∀ w₁ : World, (sample.provider.Cleanup w₁ sample.machine).1 = (true, none) →
      (sample.provider.Cleanup (sample.world none sample.emptyController) sample.machine).1
        = (sample.provider.Cleanup w₁ sample.machine).1 :=
  Cleanup_not_found_succeeds sample.provider (sample.world none sample.emptyController)
    sample.machine (by decide)

/-- C4: when `provider.Cleanup` found an instance, it sends one hard-terminate request for it
and returns `(true, nil)` if the request succeeds or fails with an error whose message contains
`NO_EXISTS`, and `false` with a `TerminalError` of reason `InvalidConfigurationMachineError` if
the request fails with any other error. -/
theorem Cleanup_terminate_results (p : provider) (w : World) (machine : Machine)
    (inst : openNebulaInstance) (hget : p.Get w machine = .ok inst) :
    ∃ c pc, p.getConfig w machine.Spec.ProviderSpec = .ok (c, pc) ∧
      (∀ e, (w.NewController c).VMTerminateHard inst.vm.ID = some e →
        List.IsInfix "NO_EXISTS".data e.data →
        p.Cleanup w machine = ((true, none), [.terminateHard inst.vm.ID])) ∧
      (∀ e, (w.NewController c).VMTerminateHard inst.vm.ID = some e →
        ¬ List.IsInfix "NO_EXISTS".data e.data →
        ∃ msg, p.Cleanup w machine =
          ((false, some (.TerminalError .InvalidConfigurationMachineError msg)),
            [.terminateHard inst.vm.ID])) ∧
      ((w.NewController c).VMTerminateHard inst.vm.ID = none →
        p.Cleanup w machine = ((true, none), [.terminateHard inst.vm.ID])) := by
  obtain ⟨c, pc, hcfg⟩ := getConfig_ok_of_Get_ok p w machine inst hget
  refine ⟨c, pc, hcfg, ?_, ?_, ?_⟩
  · intro e he hin
    have hs : stringsContains e "NO_EXISTS" = true :=
      (stringsContainsChars_iff e.data "NO_EXISTS".data).mpr hin
    simp only [provider.Cleanup, hget, hcfg, he, hs, Bool.not_true, Bool.false_eq_true, if_false]
  · intro e he hin
    have hs : stringsContains e "NO_EXISTS" = false := by
      cases hb : stringsContains e "NO_EXISTS" with
      | false => rfl
      | true => exact absurd ((stringsContainsChars_iff e.data "NO_EXISTS".data).mp hb) hin
    simp only [provider.Cleanup, hget, hcfg, he, hs, Bool.not_false, if_true]
    exact ⟨_, rfl⟩
  · intro he
    simp only [provider.Cleanup, hget, hcfg, he]

/-- C4 at the sample pool, with a terminate request that fails on a missing instance. -/
theorem Cleanup_terminate_results_sample :
    ∃ c pc, sample.provider.getConfig
        (sample.world none (sample.controller (some "OpenNebula error [NO_EXISTS]: gone")))
        sample.machine.Spec.ProviderSpec = .ok (c, pc) ∧
      (∀ e, ((sample.world none (sample.controller (some "OpenNebula error [NO_EXISTS]: gone"))
          ).NewController c).VMTerminateHard 3 = some e →
        List.IsInfix "NO_EXISTS".data e.data →
        sample.provider.Cleanup
          (sample.world none (sample.controller (some "OpenNebula error [NO_EXISTS]: gone")))
          sample.machine = ((true, none), [.terminateHard 3])) ∧
      (∀ e, ((sample.world none (sample.controller (some "OpenNebula error [NO_EXISTS]: gone"))
          ).NewController c).VMTerminateHard 3 = some e →
        ¬ List.IsInfix "NO_EXISTS".data e.data →
        ∃ msg, sample.provider.Cleanup
          (sample.world none (sample.controller (some "OpenNebula error [NO_EXISTS]: gone")))
          sample.machine =
          ((false, some (.TerminalError .InvalidConfigurationMachineError msg)),
            [.terminateHard 3])) ∧
      (((sample.world none (sample.controller (some "OpenNebula error [NO_EXISTS]: gone"))
          ).NewController c).VMTerminateHard 3 = none →
        sample.provider.Cleanup
          (sample.world none (sample.controller (some "OpenNebula error [NO_EXISTS]: gone")))
          sample.machine = ((true, none), [.terminateHard 3])) :=
  Cleanup_terminate_results sample.provider
    (sample.world none (sample.controller (some "OpenNebula error [NO_EXISTS]: gone")))
    sample.machine { vm := sample.vm 3 [("K8S_MACHINE_UID", "uid-1")] } (by decide)

/-! ## `Create` on a config with an absent numeric field -/

/-- C10 fails on the code: when the resolved config lacks `cpu`, `memory` or `vcpu`,
`provider.Create` dereferences the nil pointer and panics; no request was sent by then. -/
theorem Create_panics_on_absent_field (p : provider) (w : World) (machine : Machine)
    (userdata : String) (c : Config) (pc : PConfig)
    (hcfg : p.getConfig w machine.Spec.ProviderSpec = .ok (c, pc))
    (h : c.Cpu = none ∨ c.Memory = none ∨ c.Vcpu = none) :
    p.Create w machine userdata = (.panic nilDereference, []) := by
  simp only [provider.Create, hcfg]
  rcases h with h | h | h
  · rw [h]
  · rw [h]
    cases c.Cpu <;> rfl
  · rw [h]
    cases c.Cpu <;> cases c.Memory <;> rfl

/-- With the three fields present `provider.Create` sends one create request and returns the
instance the remote reports for the new id. -/
theorem Create_sample_returns :
    sample.provider.Create (sample.world (some { bits := 0x3FF0000000000000 })
        (sample.controller none)) sample.machine "#cloud-config"
      = (.returned (.ok { vm := sample.vm 3 [("K8S_MACHINE_UID", "uid-1")] }),
         [.create
           [.pair "NAME" "worker-1", .pair "CPU" "1.000000", .pair "MEMORY" "1024",
            .pair "VCPU" "2",
            .vector "DISK" [("IMAGE", "flatcar"), ("DATASTORE", "default"), ("DEV_PREFIX", "vd")],
            .vector "NIC" [("NETWORK", "private"), ("MODEL", "virtio")],
            .vector "CONTEXT" [("NETWORK", "YES"), ("SSH_PUBLIC_KEY", "$USER[SSH_PUBLIC_KEY]"),
              ("K8S_MACHINE_UID", "uid-1"), ("USER_DATA", "#cloud-config")]]]) := by
  decide

/-- C10 at the sample machine, whose provider spec has no `cpu`. -/
theorem Create_panics_on_absent_field_sample :
    sample.provider.Create (sample.world none (sample.controller none)) sample.machine
        "#cloud-config"
      = (.panic nilDereference, []) :=
  Create_panics_on_absent_field sample.provider (sample.world none (sample.controller none))
    sample.machine "#cloud-config" (sample.config none) sample.pconfig rfl (Or.inl rfl)

end opennebula

/-! ## UTF-8: reading back what was written -/

namespace utf8

/-- A number below 256 is the value of the byte made of it. -/
theorem val_ofNat256 (n : Nat) (h : n < 256) : (Fin.ofNat n : Fin 256).val = n := by
  show n % 256 = n
  omega

/-- A rune is a Unicode scalar value: below the surrogates, or above them and at most
U+10FFFF. -/
theorem char_range (c : Char) : c.toNat < 0xD800 ∨ (0xDFFF < c.toNat ∧ c.toNat < 0x110000) := by
  have h := c.valid
  exact h

/-- The leading bytes of the two-byte sequences. -/
theorem acceptRange_two (b : Nat) (h : 0xC2 ≤ b ∧ b ≤ 0xDF) :
    acceptRange b = some (2, 0x80, 0xBF) := by
  unfold acceptRange
  rw [if_pos h]

/-- The leading bytes of the three-byte sequences: `0xE0` narrows the second byte from below,
`0xED` from above. -/
theorem acceptRange_three (b : Nat) (h : 0xE0 ≤ b ∧ b ≤ 0xEF) :
    acceptRange b = some (3, if b = 0xE0 then 0xA0 else 0x80, if b = 0xED then 0x9F else 0xBF) := by
  unfold acceptRange
  rw [if_neg (by omega)]
  by_cases h0 : b = 0xE0
  · rw [if_pos h0, if_pos h0, if_neg (by omega)]
  · rw [if_neg h0, if_neg h0]
    by_cases h1 : b = 0xED
    · rw [if_pos h1, if_pos h1]
    · rw [if_neg h1, if_neg h1, if_pos (by omega)]

/-- The leading bytes of the four-byte sequences: `0xF0` narrows the second byte from below,
`0xF4` from above. -/
theorem acceptRange_four (b : Nat) (h : 0xF0 ≤ b ∧ b ≤ 0xF4) :
    acceptRange b = some (4, if b = 0xF0 then 0x90 else 0x80, if b = 0xF4 then 0x8F else 0xBF) := by
  unfold acceptRange
  rw [if_neg (by omega), if_neg (by omega), if_neg (by omega), if_neg (by omega)]
  by_cases h0 : b = 0xF0
  · rw [if_pos h0, if_pos h0, if_neg (by omega)]
  · rw [if_neg h0, if_neg h0]
    by_cases h1 : b = 0xF4
    · rw [if_pos h1, if_pos h1, if_neg (by omega)]
    · rw [if_neg h1, if_neg h1, if_pos (by omega)]

/-- Decoding reads back the rune that was appended, whatever bytes follow, and reports the
width of its encoding. -/
theorem DecodeRune_AppendRune (c : Char) (rest : GoString) :
    DecodeRuneInString (AppendRune c ++ rest) = (c, (AppendRune c).length) := by
  have hr := char_range c
  have hc : Char.ofNat c.toNat = c := Char.ofNat_toNat c
  simp only [AppendRune]
  generalize c.toNat = r at hr hc
  by_cases h1 : r < 0x80
  · rw [if_pos h1]
    simp only [List.singleton_append, DecodeRuneInString, List.length_singleton]
    rw [val_ofNat256 r (by omega), if_pos h1, hc]
  · rw [if_neg h1]
    by_cases h2 : r < 0x800
    · rw [if_pos h2]
      simp only [List.cons_append, List.nil_append, DecodeRuneInString, List.length_cons,
        List.length_nil]
      rw [val_ofNat256 (0xC0 + r / 64) (by omega), if_neg (by omega),
        acceptRange_two _ (by omega)]
      simp only
      rw [val_ofNat256 (0x80 + r % 64) (by omega), if_pos (by omega)]
      have hv : (0xC0 + r / 64 - 0xC0) * 64 + (0x80 + r % 64 - 0x80) = r := by omega
      rw [hv, hc]
    · rw [if_neg h2]
      by_cases h3 : r < 0x10000
      · rw [if_pos h3]
        simp only [List.cons_append, List.nil_append, DecodeRuneInString, List.length_cons,
          List.length_nil]
        rw [val_ofNat256 (0xE0 + r / 4096) (by omega), if_neg (by omega),
          acceptRange_three _ (by omega)]
        simp only
        rw [val_ofNat256 (0x80 + r / 64 % 64) (by omega),
          val_ofNat256 (0x80 + r % 64) (by omega)]
        have hcond : (if 0xE0 + r / 4096 = 0xE0 then 0xA0 else 0x80) ≤ 0x80 + r / 64 % 64 ∧
            0x80 + r / 64 % 64 ≤ (if 0xE0 + r / 4096 = 0xED then 0x9F else 0xBF) ∧
            isCont (0x80 + r % 64) = true := by
          refine ⟨?_, ?_, ?_⟩
          · split <;> omega
          · split <;> omega
          · simp only [isCont, Bool.and_eq_true, decide_eq_true_eq]
            omega
        rw [if_pos hcond]
        have hv : (0xE0 + r / 4096 - 0xE0) * 4096 + (0x80 + r / 64 % 64 - 0x80) * 64
            + (0x80 + r % 64 - 0x80) = r := by omega
        rw [hv, hc]
      · rw [if_neg h3]
        simp only [List.cons_append, List.nil_append, DecodeRuneInString, List.length_cons,
          List.length_nil]
        rw [val_ofNat256 (0xF0 + r / 262144) (by omega), if_neg (by omega),
          acceptRange_four _ (by omega)]
        simp only
        rw [val_ofNat256 (0x80 + r / 4096 % 64) (by omega),
          val_ofNat256 (0x80 + r / 64 % 64) (by omega),
          val_ofNat256 (0x80 + r % 64) (by omega)]
        have hcond : (if 0xF0 + r / 262144 = 0xF0 then 0x90 else 0x80) ≤ 0x80 + r / 4096 % 64 ∧
            0x80 + r / 4096 % 64 ≤ (if 0xF0 + r / 262144 = 0xF4 then 0x8F else 0xBF) ∧
            isCont (0x80 + r / 64 % 64) = true ∧ isCont (0x80 + r % 64) = true := by
          refine ⟨?_, ?_, ?_, ?_⟩
          · split <;> omega
          · split <;> omega
          · simp only [isCont, Bool.and_eq_true, decide_eq_true_eq]
            omega
          · simp only [isCont, Bool.and_eq_true, decide_eq_true_eq]
            omega
        rw [if_pos hcond]
        have hv : (0xF0 + r / 262144 - 0xF0) * 262144 + (0x80 + r / 4096 % 64 - 0x80) * 4096
            + (0x80 + r / 64 % 64 - 0x80) * 64 + (0x80 + r % 64 - 0x80) = r := by omega
        rw [hv, hc]

/-- The encoding of a rune has at least one byte. -/
theorem AppendRune_length_pos (c : Char) : 0 < (AppendRune c).length := by
  simp only [AppendRune]
  split
  · simp
  · split
    · simp
    · split <;> simp

/-- Skipping as many bytes as a prefix has leaves the runes of what follows. -/
theorem runesFrom_skip (pre rest : GoString) :
    runesFrom pre.length (pre ++ rest) = runesFrom 0 rest := by
  induction pre with
  | nil => rfl
  | cons b tl ih =>
    simp only [List.length_cons, List.cons_append, runesFrom]
    exact ih

/-- Valid UTF-8 is read as the text it encodes. -/
theorem runes_encode (t : List Char) : runes (encode t) = t := by
  unfold runes
  induction t with
  | nil => rfl
  | cons c cs ih =>
    simp only [encode]
    have hpos := AppendRune_length_pos c
    have hd := DecodeRune_AppendRune c (encode cs)
    match hA : AppendRune c with
    | [] => rw [hA] at hpos; simp at hpos
    | b :: tl =>
      rw [hA] at hd
      simp only [List.cons_append] at hd ⊢
      simp only [runesFrom, hd, List.length_cons, Nat.add_sub_cancel]
      rw [runesFrom_skip tl (encode cs), ih]

end utf8

/-! ## Properties of the Flatcar config codec -/

namespace flatcar

/-- The key `disableAutoUpdate` is decoded into the field of that tag. -/
theorem findField_disableAutoUpdate :
    findField "disableAutoUpdate" = some .DisableAutoUpdate := by
  decide

/-- The key `disableLocksmithD` is decoded into the field of that tag. -/
theorem findField_disableLocksmithD :
    findField "disableLocksmithD" = some .DisableLocksmithD := by
  decide

/-- The key `disableUpdateEngine` is decoded into the field of that tag. -/
theorem findField_disableUpdateEngine :
    findField "disableUpdateEngine" = some .DisableUpdateEngine := by
  decide

/-- The key `provisioningUtility` is decoded into the field of that tag. -/
theorem findField_provisioningUtility :
    findField "provisioningUtility" = some .ProvisioningUtility := by
  decide

/-- Decoding what `json.Marshal` wrote for a config into the zero config gives the config back,
its string read as UTF-8 and written out again. -/
theorem jsonUnmarshal_jsonMarshal (c : Config) :
    jsonUnmarshal (some (jsonMarshal c)) {} =
      .ok { c with ProvisioningUtility := utf8.encode (utf8.runes c.ProvisioningUtility) } := by
  obtain ⟨a, l, u, pu⟩ := c
  by_cases h : pu = []
  · subst h
    simp [jsonMarshal, jsonUnmarshal, decodeObject, findField_disableAutoUpdate,
      findField_disableLocksmithD, findField_disableUpdateEngine, decodeField]
    rfl
  · simp [jsonMarshal, jsonUnmarshal, decodeObject, findField_disableAutoUpdate,
      findField_disableLocksmithD, findField_disableUpdateEngine, findField_provisioningUtility,
      decodeField, h]

/-- `Config.Spec` always succeeds, and `LoadConfig` of its result gives the config back with
its string coerced to valid UTF-8. -/
theorem LoadConfig_Spec (c : Config) :
    ∃ ext, c.Spec = .ok ext ∧
      LoadConfig ext =
        .ok { c with ProvisioningUtility := utf8.encode (utf8.runes c.ProvisioningUtility) } := by
  refine ⟨{ Raw := some (jsonMarshal c) }, rfl, ?_⟩
  simp only [LoadConfig, DefaultConfig, DefaultConfigForCloud]
  rw [jsonUnmarshal_jsonMarshal]

/-- Decoding a value into a field other than `ProvisioningUtility` leaves that string as it
is. -/
theorem decodeField_ProvisioningUtility (f : Field) (v : JSON) (st : DecodeState)
    (hf : f ≠ .ProvisioningUtility) :
    (decodeField f v st).1.ProvisioningUtility = st.1.ProvisioningUtility := by
  obtain ⟨cfg, err⟩ := st
  cases f <;> cases v <;> cases err <;> first | rfl | exact absurd rfl hf

/-- Decoding an object none of whose keys is decoded into `ProvisioningUtility` leaves that
string as it is. -/
theorem decodeObject_ProvisioningUtility (members : List (String × JSON)) (st : DecodeState)
    (h : ∀ m ∈ members, findField m.1 ≠ some .ProvisioningUtility) :
    (decodeObject members st).1.ProvisioningUtility = st.1.ProvisioningUtility := by
  unfold decodeObject
  induction members generalizing st with
  | nil => rfl
  | cons m rest ih =>
    rw [List.foldl_cons, ih _ (fun x hx => h x (List.mem_cons_of_mem _ hx))]
    have hm := h m (List.mem_cons_self _ _)
    cases hf : findField m.1 with
    | none => rfl
    | some f =>
      have hne : f ≠ .ProvisioningUtility := by
        intro hc
        rw [hf, hc] at hm
        exact hm rfl
      exact decodeField_ProvisioningUtility f m.2 st hne

/-- C6: for every cloud provider, `LoadConfig` of `DefaultConfigForCloud` applied to a spec
with no raw bytes is a config with the three booleans false and `ProvisioningUtility` equal to
`cloud-init` for AWS and to the empty string for any other cloud provider. -/
theorem LoadConfig_DefaultConfigForCloud (cloudProvider : CloudProvider) :
    LoadConfig (DefaultConfigForCloud { Raw := none } cloudProvider) =
      .ok { DisableAutoUpdate := false, DisableLocksmithD := false, DisableUpdateEngine := false,
            ProvisioningUtility :=
              if cloudProvider = CloudProviderAWS then CloudInit else [] } := by
  by_cases h : cloudProvider = CloudProviderAWS
  · subst h
    decide
  · simp only [DefaultConfigForCloud, if_neg h]
    decide

/-- C7 fails as stated: the config whose `ProvisioningUtility` is the single byte `0xFF`, which
is not UTF-8, is encoded by `Config.Spec` and decoded by `LoadConfig` into a config whose
`ProvisioningUtility` is the three bytes of U+FFFD. -/
theorem Spec_LoadConfig_counterexample :
    ∃ ext, ({ ProvisioningUtility := [0xFF] } : Config).Spec = .ok ext ∧
      LoadConfig ext = .ok { ProvisioningUtility := [0xEF, 0xBF, 0xBD] } ∧
      ({ ProvisioningUtility := [0xEF, 0xBF, 0xBD] } : Config) ≠
        { ProvisioningUtility := [0xFF] } :=
  ⟨_, rfl, by decide, by decide⟩

/-- C7, amended: for every config whose `ProvisioningUtility` is valid UTF-8 (the encoding of
some text, the empty one included) and for any three booleans, `Config.Spec` succeeds and
`LoadConfig` of its result succeeds with a config equal to the first. -/
theorem Spec_LoadConfig_roundtrip (c : Config)
    (h : ∃ t : List Char, c.ProvisioningUtility = utf8.encode t) :
    ∃ ext, c.Spec = .ok ext ∧ LoadConfig ext = .ok c := by
  obtain ⟨t, ht⟩ := h
  obtain ⟨ext, h1, h2⟩ := LoadConfig_Spec c
  refine ⟨ext, h1, ?_⟩
  rw [h2, ht, utf8.runes_encode]
  rw [← ht]

/-- C7, amended, at a config with `cloud-init` and mixed booleans. -/
theorem Spec_LoadConfig_roundtrip_sample :
    ∃ ext, ({ DisableAutoUpdate := true, DisableLocksmithD := false,
              DisableUpdateEngine := true, ProvisioningUtility := CloudInit } : Config).Spec
        = .ok ext ∧
      LoadConfig ext = .ok { DisableAutoUpdate := true, DisableLocksmithD := false,
                             DisableUpdateEngine := true, ProvisioningUtility := CloudInit } :=
  Spec_LoadConfig_roundtrip
    { DisableAutoUpdate := true, DisableLocksmithD := false, DisableUpdateEngine := true,
      ProvisioningUtility := CloudInit }
    ⟨"cloud-init".data, rfl⟩

/-- C8 fails on the code: `LoadConfig` of a spec with no raw bytes returns the zero config, and
`LoadConfig` of any JSON object none of whose keys is decoded into `ProvisioningUtility`
returns, when it succeeds, a config whose `ProvisioningUtility` is the empty string, which is
not the `Ignition` constant. -/
theorem LoadConfig_does_not_default_to_Ignition :
    LoadConfig { Raw := none } = .ok {} ∧
    LoadConfig { Raw := some (.document (.object [])) } = .ok {} ∧
    (∀ members cfg, (∀ m ∈ members, findField m.1 ≠ some .ProvisioningUtility) →
      LoadConfig { Raw := some (.document (.object members)) } = .ok cfg →
      cfg.ProvisioningUtility = []) ∧
    ({} : Config).ProvisioningUtility ≠ Ignition := by
  refine ⟨by decide, by decide, ?_, by decide⟩
  intro members cfg hkeys hload
  have hpu := decodeObject_ProvisioningUtility members (({} : Config), none) hkeys
  simp only [LoadConfig, DefaultConfig, DefaultConfigForCloud, jsonUnmarshal] at hload
  cases hd : decodeObject members (({} : Config), none) with
  | mk cfg1 err =>
    rw [hd] at hload hpu
    cases err with
    | some e => simp at hload
    | none =>
      simp only [Except.ok.injEq] at hload
      rw [← hload]
      exact hpu

end flatcar

end MachineController
